import Mathlib

/-!
Shallow embedding of the go-sync-tool scanner (`src/main.go`) and proofs
about its state machine, progress arithmetic, pause/cancel checkpoint and
collection pipeline.

Modelling conventions:
* Go `int64` atomics become `Int` (no claim here involves 64-bit overflow).
* `context.CancelFunc` is modelled as an opaque token id (`Nat`); a stored
  token is `some id`, the Go `nil` is `none`.
* Statuses are the exact strings the Go code stores in `StateManager.status`.
* Concurrency is resolved into an explicit sequential schedule: the worker
  pool is modelled as one worker draining the job list in stream order,
  which is an admissible interleaving of the Go program; cancellation time
  is measured in checkpoint executions.
-/

/-! ## 1. StateManager (src/main.go lines 62-134) -/

/-- State of the global `StateManager` (Go struct at lines 63-70).
`cancelFunc` holds the token id stored by `Start`; `none` models Go `nil`. -/
structure StateManager where
  status : String
  cancelFunc : Option Nat
  isPaused : Bool
  processedItems : Int
  totalItems : Int
deriving DecidableEq, Repr

/-- The package-level `var state = &StateManager{status: "idle"}` (line 134). -/
def initialState : StateManager :=
  { status := "idle", cancelFunc := none, isPaused := false
    processedItems := 0, totalItems := 0 }

/-- `StateManager.Start` (lines 72-80): unconditionally sets status to
running, stores the cancel token and zeroes both counters and the pause
flag.  Note the Go method itself performs no conflict check. -/
def StateManager.Start (sm : StateManager) (cancel : Nat) : StateManager :=
  { sm with status := "running", cancelFunc := some cancel, isPaused := false
            processedItems := 0, totalItems := 0 }

/-- `StateManager.SetTotal` (lines 82-84). -/
def StateManager.SetTotal (sm : StateManager) (total : Int) : StateManager :=
  { sm with totalItems := total }

/-- `StateManager.IncrementProcessed` (lines 86-88): returns the
post-increment value together with the new state. -/
def StateManager.IncrementProcessed (sm : StateManager) : StateManager × Int :=
  ({ sm with processedItems := sm.processedItems + 1 }, sm.processedItems + 1)

/-- `StateManager.GetProgress` (lines 90-92). -/
def StateManager.GetProgress (sm : StateManager) : Int × Int :=
  (sm.processedItems, sm.totalItems)

/-- `StateManager.Pause` (lines 94-101): acts only when status is exactly
"running". -/
def StateManager.Pause (sm : StateManager) : StateManager :=
  if sm.status = "running" then
    { sm with isPaused := true, status := "paused" }
  else sm

/-- `StateManager.Resume` (lines 103-110): acts only when status is exactly
"paused". -/
def StateManager.Resume (sm : StateManager) : StateManager :=
  if sm.status = "paused" then
    { sm with isPaused := false, status := "running" }
  else sm

/-- `StateManager.Cancel` (lines 112-119): whenever a cancel token is
stored (it is never cleared after a `Start`), fires it and sets status to
"canceled"; with no stored token it is a no-op. -/
def StateManager.Cancel (sm : StateManager) : StateManager :=
  if sm.cancelFunc.isSome then { sm with status := "canceled" } else sm

/-- `StateManager.Finish` (lines 121-125): sets status to "finished"
unconditionally, whatever the prior status. -/
def StateManager.Finish (sm : StateManager) : StateManager :=
  { sm with status := "finished" }

/-- `StateManager.IsRunning` (lines 127-131). -/
def StateManager.IsRunning (sm : StateManager) : Bool :=
  sm.status = "running" || sm.status = "paused"

/-- Result of an HTTP start handler: 409 Conflict or 200 OK. -/
inductive HandleResult where
  | conflict
  | ok
deriving DecidableEq, Repr

/-- `handleCollect` (lines 367-384), restricted to its state effect: reject
with Conflict while `IsRunning`, leaving the state untouched; otherwise
create a cancel token and call `Start`. -/
def handleCollect (sm : StateManager) (cancel : Nat) : HandleResult × StateManager :=
  if sm.IsRunning then (HandleResult.conflict, sm)
  else (HandleResult.ok, sm.Start cancel)

/-- One externally issued control operation (Pause/Resume/Cancel/Finish
handlers and pipeline cleanup). -/
inductive CtrlOp where
  | pauseOp
  | resumeOp
  | cancelOp
  | finishOp
deriving DecidableEq, Repr

/-- Apply one control operation to the state. -/
def applyCtrl (sm : StateManager) : CtrlOp → StateManager
  | CtrlOp.pauseOp => sm.Pause
  | CtrlOp.resumeOp => sm.Resume
  | CtrlOp.cancelOp => sm.Cancel
  | CtrlOp.finishOp => sm.Finish

/-- A status string is terminal when it is "canceled" or "finished". -/
def terminalStatus (s : String) : Bool :=
  s = "canceled" || s = "finished"

/-! ## 2. Progress percentage (src/main.go lines 198-212) -/

/-- The percentage computed by `sendProgressUpdate` (lines 200-203):
`processed/total*100` when `total > 0`, else `0`.  Go's float64 division is
modelled exactly over `Rat`; all values reachable here are exactly
representable ratios. -/
def percentage (processed total : Int) : Rat :=
  if total > 0 then ((processed : Rat) / (total : Rat)) * 100 else 0

/-! ## 3. checkPauseAndCancel (src/main.go lines 219-236) -/

/-- The poll interval of the pause loop: `time.After(500 * time.Millisecond)`
at line 231. -/
def pollIntervalMillis : Nat := 500

/-- What one iteration of the checkpoint observes: the pause flag read at
the top of the `for` loop, and whether the context's Done channel fires
before the 500 ms timer of that iteration. -/
structure PollObs where
  paused : Bool
  canceled : Bool
deriving DecidableEq, Repr

/-- The `for state.isPaused.Load()` loop (lines 227-234), run against a
finite transient trace of observations followed by a steady state repeated
forever.  Returns `some (err, n)` when the loop exits at iteration `n`
(`err = true` for `return ctx.Err()`, `false` for falling out of the loop
and returning `nil`), and `none` when it polls forever. -/
def pauseLoop : List PollObs → PollObs → Option (Bool × Nat)
  | [], steady =>
      if !steady.paused then some (false, 0)
      else if steady.canceled then some (true, 0)
      else none
  | o :: rest, steady =>
      if !o.paused then some (false, 0)
      else if o.canceled then some (true, 0)
      else match pauseLoop rest steady with
        | some (err, n) => some (err, n + 1)
        | none => none

/-- `checkPauseAndCancel` (lines 219-236): the initial non-blocking
`select` on `ctx.Done()` (lines 220-225) followed by the pause poll loop.
The first observation is used by both the initial select and the first
loop iteration. -/
def checkPauseAndCancel (first : PollObs) (rest : List PollObs)
    (steady : PollObs) : Option (Bool × Nat) :=
  if first.canceled then some (true, 0)
  else pauseLoop (first :: rest) steady

/-! ## 4. The collection pipeline `CollectFiles` (src/main.go lines 239-329) -/

/-- One filesystem entry as both `filepath.Walk` passes see it, flattened
into walk order.  `walkErr` models the walk callback being handed a non-nil
`err` for this entry; `statOk`/`hashOk` model the per-item `os.Stat` and
`calculateHash` outcomes inside a worker. -/
structure FileEntry where
  path : String
  isDir : Bool
  walkErr : Bool
  statOk : Bool
  hashOk : Bool
  size : Int
  modTime : Nat
  hash : String
deriving DecidableEq, Repr

/-- `FileMetadata` (lines 27-32). -/
structure FileMetadata where
  Path : String
  Size : Int
  ModTime : Nat
  Hash : String
deriving DecidableEq, Repr

/-- `CollectionReport` (lines 35-40); `rtype` is the Go field `Type`. -/
structure CollectionReport where
  rtype : String
  RootPath : String
  Files : List FileMetadata
  Timestamp : Nat
deriving DecidableEq, Repr

/-- Events observable on the websocket hub, one constructor per `sendLog` /
`sendProgressUpdate` call site of `CollectFiles`.  `logWalkFailure` exists
so that "the pipeline emits a traversal-failure event" is expressible: no
code path of the model produces it, mirroring line 290 where the error
returned by `filepath.Walk` is discarded. -/
inductive Event where
  | logCountStart (root : String)
  | logCountDone (total : Int)
  | progressStart
  | logStatError (path : String)
  | logHashError (path : String)
  | progressCollected (rel : String) (processed total : Int)
  | logCanceled
  | progressCanceled
  | logDone (fileName : String)
  | progressDone
  | logWalkFailure (msg : String)
deriving DecidableEq, Repr

/-- `filepath.Rel(rootPath, path)` (line 276) for the shapes the walker
produces: strip the root directory and separator when present. -/
def relPath (root p : String) : String :=
  if p.take (root.length + 1) = root ++ "/" then p.drop (root.length + 1)
  else p

/-- The count pass (lines 241-247): visits every entry, counts those with
`err == nil && !info.IsDir()`, and always returns nil, so it never aborts. -/
def countPass (fs : List FileEntry) : Int :=
  ((fs.filter (fun e => !e.walkErr && !e.isDir)).length : Int)

/-- The stream pass (lines 288-303): walks in order, pushing non-directory
paths, and aborts at the first entry whose callback receives an error
(`return err`, line 292).  Entries after that point are never enqueued. -/
def streamPass (fs : List FileEntry) : List FileEntry :=
  (fs.takeWhile (fun e => !e.walkErr)).filter (fun e => !e.isDir)

/-- Whether the stream pass's `filepath.Walk` returned a non-nil error.
The goroutine at lines 288-303 discards this value. -/
def streamPassFailed (fs : List FileEntry) : Bool :=
  fs.any (fun e => e.walkErr)

/-- Mutable state threaded through the worker loop: the contents of the
`results` channel in emission order, the events broadcast so far, the
value of `processedItems`, and whether some worker executed
`close(results)` (line 282). -/
structure RunState where
  emitted : List FileMetadata
  events : List Event
  processed : Int
  resultsClosed : Bool
deriving DecidableEq, Repr

/-- Cancellation fires before the checkpoint with index `c` when
`cancelAt = some c`: the checkpoint executed for the i-th job observes a
fired token exactly when `c ≤ i`. -/
def canceledAt (cancelAt : Option Nat) (i : Nat) : Bool :=
  match cancelAt with
  | none => false
  | some c => c ≤ i

/-- The worker body (lines 261-284) over the job list, sequentially: for
each job run `checkPauseAndCancel` (stop on a fired token), then `os.Stat`
(log and skip on failure), then `calculateHash` (log and skip on failure),
then emit the `FileMetadata`, increment `processedItems`, broadcast the
progress update, and `close(results)` when the post-increment count equals
`totalFiles`. -/
def workerLoop (root : String) (total : Int) (cancelAt : Option Nat) :
    List FileEntry → Nat → RunState → RunState
  | [], _, st => st
  | e :: rest, i, st =>
      if canceledAt cancelAt i then st
      else if !e.statOk then
        workerLoop root total cancelAt rest (i + 1)
          { st with events := st.events ++ [Event.logStatError e.path] }
      else if !e.hashOk then
        workerLoop root total cancelAt rest (i + 1)
          { st with events := st.events ++ [Event.logHashError e.path] }
      else
        let rel := relPath root e.path
        let md := { Path := rel, Size := e.size, ModTime := e.modTime
                    Hash := e.hash : FileMetadata }
        let p := st.processed + 1
        workerLoop root total cancelAt rest (i + 1)
          { emitted := st.emitted ++ [md]
            events := st.events ++ [Event.progressCollected rel p total]
            processed := p
            resultsClosed := st.resultsClosed || decide (p = total) }

/-- How a `CollectFiles` run ends.  `hang` is the outcome in which the
`results` channel is never closed, so `for res := range results`
(lines 306-308) blocks forever and nothing after it executes. -/
inductive Outcome where
  | report (r : CollectionReport)
  | discarded
  | hang
deriving DecidableEq, Repr

/-- `fileName` at line 321, with the timestamp abstracted to `now`. -/
def reportFileName (rtype : String) (now : Nat) : String :=
  "collected_data/" ++ rtype ++ "_" ++ toString now ++ ".json"

/-- Everything observable about one `CollectFiles` run: broadcast events,
the status `StateManager.status` holds once the run is quiescent, the
control-flow outcome, and the report actually persisted on disk. -/
structure CollectResult where
  events : List Event
  finalStatus : String
  outcome : Outcome
  onDisk : Option CollectionReport
deriving DecidableEq, Repr

/-- `CollectFiles` (lines 239-329) under the sequential schedule.
`cancelAt = some c` (meaningful for `c ≤` number of streamed jobs) models
`/cancel` arriving during the run: `StateManager.Cancel` sets status
"canceled" and the context fires before checkpoint `c`.  `createOk` and
`encodeOk` model the ignored error results of `os.Create` (line 322) and
`Encode` (line 324); the run's events, status and outcome do not consult
them — only `onDisk` does. -/
def CollectFiles (fs : List FileEntry) (root rtype : String)
    (cancelAt : Option Nat) (createOk encodeOk : Bool) (now : Nat) :
    CollectResult :=
  let total := countPass fs
  let jobs := streamPass fs
  let st0 : RunState :=
    { emitted := []
      events := [Event.logCountStart root, Event.logCountDone total,
                 Event.progressStart]
      processed := 0
      resultsClosed := false }
  let st := workerLoop root total cancelAt jobs 0 st0
  if st.resultsClosed then
    if cancelAt.isSome then
      { events := st.events ++ [Event.logCanceled, Event.progressCanceled]
        finalStatus := "finished"
        outcome := Outcome.discarded
        onDisk := none }
    else
      let r : CollectionReport :=
        { rtype := rtype, RootPath := root, Files := st.emitted
          Timestamp := now }
      { events := st.events ++ [Event.logDone (reportFileName rtype now),
                                Event.progressDone]
        finalStatus := "finished"
        outcome := Outcome.report r
        onDisk := if createOk && encodeOk then some r else none }
  else
    { events := st.events
      finalStatus := if cancelAt.isSome then "canceled" else "running"
      outcome := Outcome.hang
      onDisk := none }

/-! ## 5. Derived notions and sample data used in statements -/

/-- A worker emits a `FileMetadata` for a job exactly when both its stat
and its hash succeed. -/
def goodFile (e : FileEntry) : Bool :=
  e.statOk && e.hashOk

/-- The `FileMetadata` a worker builds for a file (lines 276-277). -/
def mkMeta (root : String) (e : FileEntry) : FileMetadata :=
  { Path := relPath root e.path, Size := e.size, ModTime := e.modTime
    Hash := e.hash }

/-- The log event a per-item failure produces (lines 266-275): a stat
failure logs first; a hash failure is only reached when stat succeeded. -/
def perItemErrEvent (e : FileEntry) : Event :=
  if e.statOk then Event.logHashError e.path else Event.logStatError e.path

/-- A walk entry the scan can deliver to the workers: the walk callback got
no error for it and it is not a directory. -/
def reachableFile (e : FileEntry) : Bool :=
  !e.walkErr && !e.isDir

/-- The `RunState` at worker start-up: counter zero, channel open, the
three events of lines 240-250 already broadcast. -/
def initialRun (root : String) (total : Int) : RunState :=
  { emitted := []
    events := [Event.logCountStart root, Event.logCountDone total,
               Event.progressStart]
    processed := 0
    resultsClosed := false }

/-- A healthy regular file used by concrete witnesses. -/
def fileA : FileEntry :=
  { path := "root/a.txt", isDir := false, walkErr := false, statOk := true
    hashOk := true, size := 4, modTime := 0, hash := "ha" }

/-- A second healthy regular file. -/
def fileB : FileEntry :=
  { path := "root/b.txt", isDir := false, walkErr := false, statOk := true
    hashOk := true, size := 0, modTime := 1, hash := "hb" }

/-- A regular file whose `os.Stat` fails. -/
def fileBad : FileEntry :=
  { path := "root/bad.txt", isDir := false, walkErr := false, statOk := false
    hashOk := true, size := 1, modTime := 2, hash := "hx" }

/-- A directory on which the walk callback receives an error. -/
def dirErr : FileEntry :=
  { path := "root/errdir", isDir := true, walkErr := true, statOk := true
    hashOk := true, size := 0, modTime := 3, hash := "" }

/-- A running state with a stored cancel token, as after `Start`. -/
def runningSM : StateManager :=
  { status := "running", cancelFunc := some 0, isPaused := false
    processedItems := 2, totalItems := 5 }

/-- A canceled state with the cancel token still stored (the code never
clears `cancelFunc`). -/
def canceledSM : StateManager :=
  { status := "canceled", cancelFunc := some 0, isPaused := false
    processedItems := 3, totalItems := 5 }

/-- The worker-pool phase of one `CollectFiles` run: the job list produced
by the stream pass, driven from the freshly initialised `RunState`. -/
def pipelineRun (fs : List FileEntry) (root : String)
    (cancelAt : Option Nat) : RunState :=
  workerLoop root (countPass fs) cancelAt (streamPass fs) 0
    (initialRun root (countPass fs))

/-- The report a successful scan of `[fileA, fileB]` under root "root"
assembles at timestamp 9. -/
def sampleReport : CollectionReport :=
  { rtype := "source", RootPath := "root"
    Files := [{ Path := "a.txt", Size := 4, ModTime := 0, Hash := "ha" },
              { Path := "b.txt", Size := 0, ModTime := 1, Hash := "hb" }]
    Timestamp := 9 }

/-! ## Helper lemmas -/

/-- Any control operation keeps a terminal status terminal. -/
lemma applyCtrl_terminal (sm : StateManager)
    (h : terminalStatus sm.status = true) (op : CtrlOp) :
    terminalStatus ((applyCtrl sm op).status) = true := by
  have hs : sm.status = "canceled" ∨ sm.status = "finished" := by
    simpa [terminalStatus] using h
  cases op with
  | pauseOp =>
      have hne : ¬ sm.status = "running" := by
        rcases hs with h' | h' <;> simp [h']
      simpa [applyCtrl, StateManager.Pause, hne] using h
  | resumeOp =>
      have hne : ¬ sm.status = "paused" := by
        rcases hs with h' | h' <;> simp [h']
      simpa [applyCtrl, StateManager.Resume, hne] using h
  | cancelOp =>
      by_cases hc : sm.cancelFunc.isSome
      · simp [applyCtrl, StateManager.Cancel, hc, terminalStatus]
      · simpa [applyCtrl, StateManager.Cancel, hc] using h
  | finishOp =>
      simp [applyCtrl, StateManager.Finish, terminalStatus]

/-- A fold of control operations keeps a terminal status terminal. -/
lemma foldl_applyCtrl_terminal (ops : List CtrlOp) :
    ∀ sm : StateManager, terminalStatus sm.status = true →
      terminalStatus ((ops.foldl applyCtrl sm).status) = true := by
  induction ops with
  | nil => intro sm h; simpa using h
  | cons op rest ih =>
      intro sm h
      exact ih (applyCtrl sm op) (applyCtrl_terminal sm h op)

/-- The pause poll loop returns within one iteration past the transient
trace whenever the steady state is unpaused or canceled. -/
lemma pauseLoop_total (tr : List PollObs) (steady : PollObs)
    (h : steady.canceled = true ∨ steady.paused = false) :
    ∃ b n, pauseLoop tr steady = some (b, n) ∧ n ≤ tr.length := by
  induction tr with
  | nil =>
      by_cases hp : steady.paused
      · rcases h with h | h
        · exact ⟨true, 0, by simp [pauseLoop, hp, h], Nat.le_refl 0⟩
        · exact absurd hp (by simp [h])
      · exact ⟨false, 0, by simp [pauseLoop, hp], Nat.le_refl 0⟩
  | cons o rest ih =>
      by_cases hp : o.paused
      · by_cases hc : o.canceled
        · exact ⟨true, 0, by simp [pauseLoop, hp, hc], Nat.zero_le _⟩
        · obtain ⟨b, n, heq, hle⟩ := ih
          exact ⟨b, n + 1, by simp [pauseLoop, hp, hc, heq],
                 by simpa using Nat.succ_le_succ hle⟩
      · exact ⟨false, 0, by simp [pauseLoop, hp], Nat.zero_le _⟩

/-- If every transient observation is paused and uncanceled and the steady
state is paused and canceled, the loop returns the cancellation error at
the first steady poll. -/
lemma pauseLoop_paused_then_cancel (tr : List PollObs) (steady : PollObs)
    (htr : ∀ o ∈ tr, o.paused = true ∧ o.canceled = false)
    (hp : steady.paused = true) (hc : steady.canceled = true) :
    pauseLoop tr steady = some (true, tr.length) := by
  induction tr with
  | nil => simp [pauseLoop, hp, hc]
  | cons o rest ih =>
      obtain ⟨hop, hoc⟩ := htr o (List.mem_cons_self o rest)
      have := ih (fun x hx => htr x (List.mem_cons_of_mem o hx))
      simp [pauseLoop, hop, hoc, this]

/-! ## Claim theorems -/

/-- C1.  While the status is running or paused, a start request is
rejected with Conflict and the whole state (status, counters, stored cancel
token) is untouched; otherwise it succeeds and the new state has zeroed
counters, the given cancel token, and status running. -/
theorem start_rejected_while_running_or_paused (sm : StateManager) (c : Nat) :
    ((sm.status = "running" ∨ sm.status = "paused") →
        handleCollect sm c = (HandleResult.conflict, sm)) ∧
    (¬(sm.status = "running" ∨ sm.status = "paused") →
        handleCollect sm c =
          (HandleResult.ok,
            { status := "running", cancelFunc := some c, isPaused := false
              processedItems := 0, totalItems := 0 })) := by
  constructor
  · intro h
    have hr : sm.IsRunning = true := by
      rcases h with h | h <;> simp [StateManager.IsRunning, h]
    simp [handleCollect, hr]
  · intro h
    push_neg at h
    have hr : sm.IsRunning = false := by
      simp [StateManager.IsRunning, h.1, h.2]
    simp [handleCollect, hr, StateManager.Start]

/-- Witness for C1 at two concrete states. -/
theorem start_rejected_witness :
    handleCollect runningSM 7 = (HandleResult.conflict, runningSM) ∧
    handleCollect initialState 7 =
      (HandleResult.ok,
        { status := "running", cancelFunc := some 7, isPaused := false
          processedItems := 0, totalItems := 0 }) :=
  ⟨(start_rejected_while_running_or_paused runningSM 7).1 (Or.inl rfl),
   (start_rejected_while_running_or_paused initialState 7).2 (by decide)⟩

/-- C7 counterexample.  In the terminal status "canceled", `Finish`
changes the status to "finished": a non-Start operation leaves a terminal
status, contradicting the claim. -/
theorem finish_leaves_canceled_counterexample :
    terminalStatus canceledSM.status = true ∧
    (canceledSM.Finish).status = "finished" ∧
    (canceledSM.Finish).status ≠ "canceled" := by
  refine ⟨by decide, rfl, by decide⟩

/-- C7 amended.  The terminal set {canceled, finished} is closed under
every sequence of Pause, Resume, Cancel and Finish, and Pause and Resume
are no-ops on a terminal state; but the two terminal statuses are not
individually absorbing: Finish always yields "finished" and Cancel yields
"canceled" whenever a token is stored.  Only Start leaves the terminal
set, setting status running. -/
theorem terminal_statuses_closed (sm : StateManager) (c : Nat)
    (h : terminalStatus sm.status = true) :
    (∀ ops : List CtrlOp,
        terminalStatus ((ops.foldl applyCtrl sm).status) = true) ∧
    sm.Pause = sm ∧ sm.Resume = sm ∧
    (sm.Finish).status = "finished" ∧
    (sm.cancelFunc.isSome = true → (sm.Cancel).status = "canceled") ∧
    (sm.Start c).status = "running" := by
  have hs : sm.status = "canceled" ∨ sm.status = "finished" := by
    simpa [terminalStatus] using h
  refine ⟨fun ops => foldl_applyCtrl_terminal ops sm h, ?_, ?_, rfl, ?_, rfl⟩
  · have hne : ¬ sm.status = "running" := by
      rcases hs with h' | h' <;> simp [h']
    simp [StateManager.Pause, hne]
  · have hne : ¬ sm.status = "paused" := by
      rcases hs with h' | h' <;> simp [h']
    simp [StateManager.Resume, hne]
  · intro hc
    simp [StateManager.Cancel, hc]

/-- Witness for C7 amended at a concrete terminal state. -/
theorem terminal_statuses_closed_witness :
    terminalStatus ((([CtrlOp.pauseOp, CtrlOp.cancelOp,
        CtrlOp.finishOp]).foldl applyCtrl canceledSM).status) = true ∧
    canceledSM.Pause = canceledSM :=
  ⟨(terminal_statuses_closed canceledSM 0 (by decide)).1 _,
   (terminal_statuses_closed canceledSM 0 (by decide)).2.1⟩

/-- C5 counterexample.  The percentage formula is not bounded by 100 for
all counter values: a snapshot with processed = 3, total = 2 yields 150. -/
theorem percentage_exceeds_100_counterexample :
    percentage 3 2 = 150 ∧ ¬(percentage 3 2 ≤ 100) := by
  constructor <;> norm_num [percentage]

/-- C5 amended.  The percentage equals processed/total*100 when total > 0
and 0 when total = 0, and it lies in [0, 100] whenever
0 ≤ processed ≤ total — the bound does not hold for arbitrary counter
values (see the counterexample with processed > total). -/
theorem percentage_formula_and_bounds (processed total : Int) :
    (0 < total →
        percentage processed total = (processed : Rat) / (total : Rat) * 100) ∧
    (total = 0 → percentage processed total = 0) ∧
    (0 ≤ processed → processed ≤ total →
        0 ≤ percentage processed total ∧ percentage processed total ≤ 100) := by
  refine ⟨fun h => by simp [percentage, h], fun h => by simp [percentage, h],
          fun h0 hle => ?_⟩
  by_cases ht : 0 < total
  · have htR : (0 : Rat) < (total : Rat) := by exact_mod_cast ht
    have hpR : (processed : Rat) ≤ (total : Rat) := by exact_mod_cast hle
    have h0R : (0 : Rat) ≤ (processed : Rat) := by exact_mod_cast h0
    have hdiv : (processed : Rat) / (total : Rat) ≤ 1 :=
      (div_le_one htR).mpr hpR
    constructor
    · simp only [percentage, if_pos ht]
      have := div_nonneg h0R (le_of_lt htR)
      nlinarith
    · simp only [percentage, if_pos ht]
      nlinarith
  · have : ¬ total > 0 := ht
    simp [percentage, this]

/-- Witness for C5 amended at processed = 1, total = 4. -/
theorem percentage_bounds_witness :
    (0 < (4 : Int) →
        percentage 1 4 = (1 : Rat) / (4 : Rat) * 100) ∧
    0 ≤ percentage 1 4 ∧ percentage 1 4 ≤ 100 :=
  ⟨(percentage_formula_and_bounds 1 4).1,
   (percentage_formula_and_bounds 1 4).2.2 (by norm_num) (by norm_num)⟩

/-- C9.  The pause checkpoint polls on a 500 ms interval; an already-fired
token returns the cancellation error immediately; it returns within one
poll past the transient trace when the steady state is resumed or
canceled; and when the operation stays paused throughout, a permanently
fired token is observed at the very next poll, so a paused worker is never
stuck past one poll interval after Cancel. -/
theorem checkpoint_responsive_to_cancel (first : PollObs)
    (rest : List PollObs) (steady : PollObs) :
    pollIntervalMillis = 500 ∧
    (first.canceled = true →
        checkPauseAndCancel first rest steady = some (true, 0)) ∧
    (steady.canceled = true ∨ steady.paused = false →
        ∃ b n, checkPauseAndCancel first rest steady = some (b, n) ∧
          n ≤ rest.length + 1) ∧
    ((∀ o ∈ first :: rest, o.paused = true ∧ o.canceled = false) →
        steady.paused = true → steady.canceled = true →
        checkPauseAndCancel first rest steady =
          some (true, rest.length + 1)) := by
  refine ⟨rfl, fun h => by simp [checkPauseAndCancel, h], ?_, ?_⟩
  · intro h
    by_cases hc : first.canceled
    · exact ⟨true, 0, by simp [checkPauseAndCancel, hc], Nat.zero_le _⟩
    · obtain ⟨b, n, heq, hle⟩ := pauseLoop_total (first :: rest) steady h
      exact ⟨b, n, by simpa [checkPauseAndCancel, hc] using heq,
             by simpa using hle⟩
  · intro htr hp hc
    obtain ⟨hfp, hfc⟩ := htr first (List.mem_cons_self first rest)
    have := pauseLoop_paused_then_cancel (first :: rest) steady htr hp hc
    simpa [checkPauseAndCancel, hfc] using this

/-- Witness for C9: paused for two polls, cancel fires at the steady
state; the checkpoint returns the cancellation error at poll 2. -/
theorem checkpoint_responsive_witness :
    checkPauseAndCancel ⟨true, false⟩ [⟨true, false⟩] ⟨true, true⟩ =
      some (true, 2) :=
  (checkpoint_responsive_to_cancel ⟨true, false⟩ [⟨true, false⟩]
      ⟨true, true⟩).2.2.2 (by decide) rfl rfl

/-- Unfolding `CollectFiles` through its let-bindings. -/
lemma CollectFiles_eq (fs : List FileEntry) (root rtype : String)
    (cancelAt : Option Nat) (createOk encodeOk : Bool) (now : Nat) :
    CollectFiles fs root rtype cancelAt createOk encodeOk now =
      if (pipelineRun fs root cancelAt).resultsClosed then
        if cancelAt.isSome then
          { events := (pipelineRun fs root cancelAt).events ++
              [Event.logCanceled, Event.progressCanceled]
            finalStatus := "finished"
            outcome := Outcome.discarded
            onDisk := none }
        else
          { events := (pipelineRun fs root cancelAt).events ++
              [Event.logDone (reportFileName rtype now), Event.progressDone]
            finalStatus := "finished"
            outcome := Outcome.report
              { rtype := rtype, RootPath := root
                Files := (pipelineRun fs root cancelAt).emitted
                Timestamp := now }
            onDisk := if createOk && encodeOk then
                some { rtype := rtype, RootPath := root
                       Files := (pipelineRun fs root cancelAt).emitted
                       Timestamp := now }
              else none }
      else
        { events := (pipelineRun fs root cancelAt).events
          finalStatus := if cancelAt.isSome then "canceled" else "running"
          outcome := Outcome.hang
          onDisk := none } := rfl

/-- With no cancellation, the records emitted are exactly the
stat-and-hash-successful jobs, in order. -/
lemma workerLoop_none_emitted (root : String) (total : Int)
    (jobs : List FileEntry) : ∀ (i : Nat) (st : RunState),
    (workerLoop root total none jobs i st).emitted =
      st.emitted ++ (jobs.filter goodFile).map (mkMeta root) := by
  induction jobs with
  | nil => intro i st; simp [workerLoop]
  | cons e rest ih =>
      intro i st
      by_cases hs : e.statOk
      · by_cases hh : e.hashOk
        · simp [workerLoop, canceledAt, hs, hh, goodFile, ih, mkMeta]
        · simp [workerLoop, canceledAt, hs, hh, goodFile, ih]
      · simp [workerLoop, canceledAt, hs, goodFile, ih]

/-- With no cancellation, the processed counter advances by exactly one
per emitted record. -/
lemma workerLoop_none_processed (root : String) (total : Int)
    (jobs : List FileEntry) : ∀ (i : Nat) (st : RunState),
    (workerLoop root total none jobs i st).processed =
      st.processed + ((jobs.filter goodFile).length : Int) := by
  induction jobs with
  | nil => intro i st; simp [workerLoop]
  | cons e rest ih =>
      intro i st
      by_cases hs : e.statOk
      · by_cases hh : e.hashOk
        · simp [workerLoop, canceledAt, hs, hh, goodFile, ih]
          omega
        · simp [workerLoop, canceledAt, hs, hh, goodFile, ih]
      · simp [workerLoop, canceledAt, hs, goodFile, ih]

/-- With no cancellation, `close(results)` has run at the end of the
worker loop exactly when some post-increment count hit `total`, i.e. when
the starting count was below `total` and the emitted records sufficed to
reach it. -/
lemma workerLoop_none_closed (root : String) (total : Int)
    (jobs : List FileEntry) : ∀ (i : Nat) (st : RunState),
    ((workerLoop root total none jobs i st).resultsClosed = true ↔
      st.resultsClosed = true ∨
        (st.processed < total ∧
          total ≤ st.processed + ((jobs.filter goodFile).length : Int))) := by
  induction jobs with
  | nil =>
      intro i st
      cases hb : st.resultsClosed <;> simp [workerLoop, hb] <;> omega
  | cons e rest ih =>
      intro i st
      by_cases hs : e.statOk
      · by_cases hh : e.hashOk
        · have hstep : workerLoop root total none (e :: rest) i st =
              workerLoop root total none rest (i + 1)
                { emitted := st.emitted ++
                    [{ Path := relPath root e.path, Size := e.size,
                       ModTime := e.modTime, Hash := e.hash }]
                  events := st.events ++
                    [Event.progressCollected (relPath root e.path)
                      (st.processed + 1) total]
                  processed := st.processed + 1
                  resultsClosed := st.resultsClosed ||
                    decide (st.processed + 1 = total) } := by
            simp [workerLoop, canceledAt, hs, hh]
          rw [hstep, ih]
          have hfil : (e :: rest).filter goodFile =
              e :: rest.filter goodFile :=
            List.filter_cons_of_pos (by simp [goodFile, hs, hh])
          rw [hfil]
          simp only [List.length_cons, Bool.or_eq_true, decide_eq_true_eq]
          cases hb : st.resultsClosed <;> simp [hb] <;> push_cast <;> omega
        · have hstep : workerLoop root total none (e :: rest) i st =
              workerLoop root total none rest (i + 1)
                { st with events := st.events ++ [Event.logHashError e.path] } := by
            simp [workerLoop, canceledAt, hs, hh]
          rw [hstep, ih]
          have hfil : (e :: rest).filter goodFile = rest.filter goodFile :=
            List.filter_cons_of_neg (by simp [goodFile, hs, hh])
          rw [hfil]
      · have hstep : workerLoop root total none (e :: rest) i st =
            workerLoop root total none rest (i + 1)
              { st with events := st.events ++ [Event.logStatError e.path] } := by
          simp [workerLoop, canceledAt, hs]
        rw [hstep, ih]
        have hfil : (e :: rest).filter goodFile = rest.filter goodFile :=
          List.filter_cons_of_neg (by simp [goodFile, hs])
        rw [hfil]

/-- The worker loop only ever appends events: everything already broadcast
stays broadcast. -/
lemma workerLoop_events_mono (root : String) (total : Int)
    (cancelAt : Option Nat) (jobs : List FileEntry) :
    ∀ (i : Nat) (st : RunState) (x : Event), x ∈ st.events →
      x ∈ (workerLoop root total cancelAt jobs i st).events := by
  induction jobs with
  | nil => intro i st x hx; simpa [workerLoop] using hx
  | cons e rest ih =>
      intro i st x hx
      by_cases hcan : canceledAt cancelAt i
      · simpa [workerLoop, hcan] using hx
      · by_cases hs : e.statOk
        · by_cases hh : e.hashOk
          · have hstep : workerLoop root total cancelAt (e :: rest) i st =
                workerLoop root total cancelAt rest (i + 1)
                  { emitted := st.emitted ++
                      [{ Path := relPath root e.path, Size := e.size,
                         ModTime := e.modTime, Hash := e.hash }]
                    events := st.events ++
                      [Event.progressCollected (relPath root e.path)
                        (st.processed + 1) total]
                    processed := st.processed + 1
                    resultsClosed := st.resultsClosed ||
                      decide (st.processed + 1 = total) } := by
              simp [workerLoop, hcan, hs, hh]
            rw [hstep]
            exact ih (i + 1) _ x (by simp [hx])
          · have hstep : workerLoop root total cancelAt (e :: rest) i st =
                workerLoop root total cancelAt rest (i + 1)
                  { st with
                    events := st.events ++ [Event.logHashError e.path] } := by
              simp [workerLoop, hcan, hs, hh]
            rw [hstep]
            exact ih (i + 1) _ x (by simp [hx])
        · have hstep : workerLoop root total cancelAt (e :: rest) i st =
              workerLoop root total cancelAt rest (i + 1)
                { st with
                  events := st.events ++ [Event.logStatError e.path] } := by
            simp [workerLoop, hcan, hs]
          rw [hstep]
          exact ih (i + 1) _ x (by simp [hx])

/-- With no cancellation, every job whose stat or hash fails leaves its
error log event in the final event list. -/
lemma workerLoop_bad_logged (root : String) (total : Int)
    (jobs : List FileEntry) : ∀ (i : Nat) (st : RunState) (e : FileEntry),
    e ∈ jobs → goodFile e = false →
    perItemErrEvent e ∈ (workerLoop root total none jobs i st).events := by
  induction jobs with
  | nil => intro _ _ _ h; cases h
  | cons f rest ih =>
      intro i st e he hbad
      rcases List.mem_cons.mp he with rfl | hmem
      · by_cases hs : e.statOk
        · have hh : e.hashOk = false := by
            cases hh2 : e.hashOk
            · rfl
            · exact absurd hbad (by simp [goodFile, hs, hh2])
          have hstep : workerLoop root total none (e :: rest) i st =
              workerLoop root total none rest (i + 1)
                { st with
                  events := st.events ++ [Event.logHashError e.path] } := by
            simp [workerLoop, canceledAt, hs, hh]
          rw [hstep]
          exact workerLoop_events_mono root total none rest (i + 1) _ _
            (by simp [perItemErrEvent, hs])
        · have hstep : workerLoop root total none (e :: rest) i st =
              workerLoop root total none rest (i + 1)
                { st with
                  events := st.events ++ [Event.logStatError e.path] } := by
            simp [workerLoop, canceledAt, hs]
          rw [hstep]
          exact workerLoop_events_mono root total none rest (i + 1) _ _
            (by simp [perItemErrEvent, hs])
      · by_cases hs : f.statOk
        · by_cases hh : f.hashOk
          · have hstep : workerLoop root total none (f :: rest) i st =
                workerLoop root total none rest (i + 1)
                  { emitted := st.emitted ++
                      [{ Path := relPath root f.path, Size := f.size,
                         ModTime := f.modTime, Hash := f.hash }]
                    events := st.events ++
                      [Event.progressCollected (relPath root f.path)
                        (st.processed + 1) total]
                    processed := st.processed + 1
                    resultsClosed := st.resultsClosed ||
                      decide (st.processed + 1 = total) } := by
              simp [workerLoop, canceledAt, hs, hh]
            rw [hstep]
            exact ih (i + 1) _ e hmem hbad
          · have hstep : workerLoop root total none (f :: rest) i st =
                workerLoop root total none rest (i + 1)
                  { st with
                    events := st.events ++ [Event.logHashError f.path] } := by
              simp [workerLoop, canceledAt, hs, hh]
            rw [hstep]
            exact ih (i + 1) _ e hmem hbad
        · have hstep : workerLoop root total none (f :: rest) i st =
              workerLoop root total none rest (i + 1)
                { st with
                  events := st.events ++ [Event.logStatError f.path] } := by
            simp [workerLoop, canceledAt, hs]
          rw [hstep]
          exact ih (i + 1) _ e hmem hbad

/-- The worker loop never broadcasts a traversal-failure event: whatever
`logWalkFailure` is in its output was already there at entry. -/
lemma workerLoop_no_walkFailure (root : String) (total : Int)
    (cancelAt : Option Nat) (jobs : List FileEntry) :
    ∀ (i : Nat) (st : RunState) (m : String),
    Event.logWalkFailure m ∈ (workerLoop root total cancelAt jobs i st).events →
    Event.logWalkFailure m ∈ st.events := by
  induction jobs with
  | nil => intro i st m h; simpa [workerLoop] using h
  | cons e rest ih =>
      intro i st m h
      by_cases hcan : canceledAt cancelAt i
      · simpa [workerLoop, hcan] using h
      · by_cases hs : e.statOk
        · by_cases hh : e.hashOk
          · have hstep : workerLoop root total cancelAt (e :: rest) i st =
                workerLoop root total cancelAt rest (i + 1)
                  { emitted := st.emitted ++
                      [{ Path := relPath root e.path, Size := e.size,
                         ModTime := e.modTime, Hash := e.hash }]
                    events := st.events ++
                      [Event.progressCollected (relPath root e.path)
                        (st.processed + 1) total]
                    processed := st.processed + 1
                    resultsClosed := st.resultsClosed ||
                      decide (st.processed + 1 = total) } := by
              simp [workerLoop, hcan, hs, hh]
            rw [hstep] at h
            have := ih (i + 1) _ m h
            simpa using this
          · have hstep : workerLoop root total cancelAt (e :: rest) i st =
                workerLoop root total cancelAt rest (i + 1)
                  { st with
                    events := st.events ++ [Event.logHashError e.path] } := by
              simp [workerLoop, hcan, hs, hh]
            rw [hstep] at h
            have := ih (i + 1) _ m h
            simpa using this
        · have hstep : workerLoop root total cancelAt (e :: rest) i st =
              workerLoop root total cancelAt rest (i + 1)
                { st with
                  events := st.events ++ [Event.logStatError e.path] } := by
            simp [workerLoop, hcan, hs]
          rw [hstep] at h
          have := ih (i + 1) _ m h
          simpa using this

/-- No `CollectFiles` run ever broadcasts a traversal-failure event: the
error `filepath.Walk` returns to the stream-pass goroutine is discarded. -/
lemma collectFiles_no_walkFailure (fs : List FileEntry) (root rtype : String)
    (cancelAt : Option Nat) (createOk encodeOk : Bool) (now : Nat)
    (m : String) :
    Event.logWalkFailure m ∉
      (CollectFiles fs root rtype cancelAt createOk encodeOk now).events := by
  intro h
  rw [CollectFiles_eq] at h
  have hbase : Event.logWalkFailure m ∉ (pipelineRun fs root cancelAt).events := by
    intro hmem
    have := workerLoop_no_walkFailure root (countPass fs) cancelAt
      (streamPass fs) 0 (initialRun root (countPass fs)) m hmem
    simp [initialRun] at this
  by_cases hc : (pipelineRun fs root cancelAt).resultsClosed
  · by_cases hsome : cancelAt.isSome
    · rw [if_pos hc, if_pos hsome] at h
      rcases List.mem_append.mp h with h | h
      · exact hbase h
      · rcases List.mem_cons.mp h with h | h
        · exact Event.noConfusion h
        · rcases List.mem_cons.mp h with h | h
          · exact Event.noConfusion h
          · cases h
    · rw [if_pos hc, if_neg hsome] at h
      rcases List.mem_append.mp h with h | h
      · exact hbase h
      · rcases List.mem_cons.mp h with h | h
        · exact Event.noConfusion h
        · rcases List.mem_cons.mp h with h | h
          · exact Event.noConfusion h
          · cases h
  · rw [if_neg hc] at h
    exact hbase h

/-- The jobs the stream pass enqueues form a sublist of the entries the
count pass counted (walk order, same filesystem). -/
lemma streamPass_sublist_counted (fs : List FileEntry) :
    List.Sublist (streamPass fs) (fs.filter reachableFile) := by
  have hcong : (fs.takeWhile (fun e => !e.walkErr)).filter (fun e => !e.isDir) =
      (fs.takeWhile (fun e => !e.walkErr)).filter reachableFile := by
    apply List.filter_congr
    intro a ha
    have hw := List.mem_takeWhile_imp ha
    simp only [Bool.not_eq_true'] at hw
    simp [reachableFile, hw]
  have hsub : List.Sublist (fs.takeWhile (fun e => !e.walkErr)) fs :=
    (List.takeWhile_prefix _).sublist
  unfold streamPass
  rw [hcong]
  exact hsub.filter reachableFile

/-- The count pass counts exactly the reachable non-directory entries. -/
lemma countPass_eq (fs : List FileEntry) :
    countPass fs = ((fs.filter reachableFile).length : Int) := rfl

/-- If the results channel got closed in a run without cancellation, then
every streamed job succeeded and the stream pass enqueued exactly the
entries the count pass counted. -/
lemma pipeline_success_all_good (fs : List FileEntry) (root : String)
    (h : (pipelineRun fs root none).resultsClosed = true) :
    (streamPass fs).filter goodFile = streamPass fs ∧
    streamPass fs = fs.filter reachableFile := by
  unfold pipelineRun at h
  have hclosed := (workerLoop_none_closed root (countPass fs) (streamPass fs) 0
      (initialRun root (countPass fs))).mp h
  simp only [initialRun] at hclosed
  rcases hclosed with hfalse | ⟨hpos, hle⟩
  · exact absurd hfalse (by simp)
  · simp only [countPass_eq] at hpos hle
    have h1 : ((streamPass fs).filter goodFile).length ≤ (streamPass fs).length :=
      (List.filter_sublist _).length_le
    have h2 : (streamPass fs).length ≤ (fs.filter reachableFile).length :=
      (streamPass_sublist_counted fs).length_le
    have hgl : (fs.filter reachableFile).length ≤
        ((streamPass fs).filter goodFile).length := by
      have := hle
      simp only [zero_add] at this
      exact_mod_cast this
    exact ⟨(List.filter_sublist _).eq_of_length (by omega),
           (streamPass_sublist_counted fs).eq_of_length (by omega)⟩

/-- Inverting a successful outcome: the run was uncancelled, the channel
was closed, and the report is the one assembled from the emitted records. -/
lemma collect_report_inversion (fs : List FileEntry) (root rtype : String)
    (cancelAt : Option Nat) (createOk encodeOk : Bool) (now : Nat)
    (r : CollectionReport)
    (h : (CollectFiles fs root rtype cancelAt createOk encodeOk now).outcome =
      Outcome.report r) :
    cancelAt = none ∧ (pipelineRun fs root none).resultsClosed = true ∧
    r = { rtype := rtype, RootPath := root
          Files := (pipelineRun fs root none).emitted, Timestamp := now } := by
  rw [CollectFiles_eq] at h
  by_cases hc : (pipelineRun fs root cancelAt).resultsClosed
  · by_cases hsome : cancelAt.isSome
    · rw [if_pos hc, if_pos hsome] at h
      exact absurd h (by simp)
    · have hnone : cancelAt = none := Option.not_isSome_iff_eq_none.mp hsome
      subst hnone
      rw [if_pos hc, if_neg (by simp)] at h
      simp only [Outcome.report.injEq] at h
      exact ⟨rfl, hc, h.symm⟩
  · rw [if_neg hc] at h
    exact absurd h (by simp)

/-- A walk over clean entries followed by an erroring entry streams
exactly the clean ones. -/
lemma takeWhile_clean_append (fs₁ : List FileEntry) (e : FileEntry)
    (fs₂ : List FileEntry) (h₁ : ∀ x ∈ fs₁, x.walkErr = false)
    (he : e.walkErr = true) :
    (fs₁ ++ e :: fs₂).takeWhile (fun x => !x.walkErr) = fs₁ := by
  induction fs₁ with
  | nil => simp [List.takeWhile_cons, he]
  | cons a rest ih =>
      have ha : a.walkErr = false := h₁ a (List.mem_cons_self a rest)
      have := ih (fun x hx => h₁ x (List.mem_cons_of_mem a hx))
      simp [List.takeWhile_cons, ha, this]

/-- C2 counterexample.  A one-file scan with `/cancel` arriving after the
file was processed but before the collector's cancellation check: the
results are discarded and no report is produced, but the final status is
"finished" — not "canceled" — because the cleanup path calls
`StateManager.Finish`. -/
theorem cancel_midrun_finished_counterexample :
    1 ≤ (streamPass [fileA]).length ∧
    (CollectFiles [fileA] "root" "source" (some 1) true true 0).outcome =
      Outcome.discarded ∧
    (CollectFiles [fileA] "root" "source" (some 1) true true 0).onDisk =
      none ∧
    (CollectFiles [fileA] "root" "source" (some 1) true true 0).finalStatus =
      "finished" ∧
    (CollectFiles [fileA] "root" "source" (some 1) true true 0).finalStatus ≠
      "canceled" := by
  refine ⟨by decide, rfl, rfl, rfl, by decide⟩

/-- C2 amended.  When `Cancel` fires during the run, no report is ever
produced or persisted; if the results channel was never closed the
goroutine blocks and the status stays "canceled", but if the channel was
closed the collector discards the results, calls `Finish`, and the final
status is "finished", the cancellation being communicated only by the
event text. -/
theorem cancel_midrun_discards_report (fs : List FileEntry)
    (root rtype : String) (createOk encodeOk : Bool) (now : Nat) (c : Nat)
    (hc : c ≤ (streamPass fs).length) :
    (CollectFiles fs root rtype (some c) createOk encodeOk now).onDisk =
      none ∧
    (∀ r, (CollectFiles fs root rtype (some c) createOk encodeOk now).outcome ≠
        Outcome.report r) ∧
    ((CollectFiles fs root rtype (some c) createOk encodeOk now).outcome =
        Outcome.hang →
      (CollectFiles fs root rtype (some c) createOk encodeOk now).finalStatus =
        "canceled") ∧
    ((CollectFiles fs root rtype (some c) createOk encodeOk now).outcome =
        Outcome.discarded →
      (CollectFiles fs root rtype (some c) createOk encodeOk now).finalStatus =
        "finished" ∧
      Event.progressCanceled ∈
        (CollectFiles fs root rtype (some c) createOk encodeOk now).events) := by
  rw [CollectFiles_eq]
  by_cases hcl : (pipelineRun fs root (some c)).resultsClosed
  · rw [if_pos hcl, if_pos (by simp)]
    refine ⟨rfl, fun r h => by simpa using h, fun h => by simp at h, fun _ => ⟨rfl, by simp⟩⟩
  · rw [if_neg hcl]
    refine ⟨rfl, fun r h => by simpa using h, fun _ => by simp, fun h => by simp at h⟩

/-- Witness for C2 amended: a one-file scan canceled before its only
checkpoint persists nothing and assembles no report. -/
theorem cancel_midrun_discards_witness :
    (CollectFiles [fileA] "root" "source" (some 0) true true 0).onDisk =
      none ∧
    (CollectFiles [fileA] "root" "source" (some 0) true true 0).outcome ≠
      Outcome.report sampleReport :=
  ⟨(cancel_midrun_discards_report [fileA] "root" "source" true true 0 0
      (by decide)).1,
   (cancel_midrun_discards_report [fileA] "root" "source" true true 0 0
      (by decide)).2.1 sampleReport⟩

/-- C3.  If a scan completes successfully (an in-memory report is
assembled), the reported paths are exactly the reachable non-directory
entries of the walk, minus those whose stat or hash failed, and every such
omitted file has its error log event in the broadcast stream. -/
theorem report_files_match_walk (fs : List FileEntry) (root rtype : String)
    (cancelAt : Option Nat) (createOk encodeOk : Bool) (now : Nat)
    (r : CollectionReport)
    (h : (CollectFiles fs root rtype cancelAt createOk encodeOk now).outcome =
      Outcome.report r) :
    r.Files.map (fun m => m.Path) =
      ((fs.filter reachableFile).filter goodFile).map
        (fun e => relPath root e.path) ∧
    ∀ e ∈ fs, reachableFile e = true → goodFile e = false →
      perItemErrEvent e ∈
        (CollectFiles fs root rtype cancelAt createOk encodeOk now).events := by
  obtain ⟨hnone, hclosed, hr⟩ :=
    collect_report_inversion fs root rtype cancelAt createOk encodeOk now r h
  subst hnone
  obtain ⟨hgood, hstream⟩ := pipeline_success_all_good fs root hclosed
  constructor
  · rw [hr]
    show (pipelineRun fs root none).emitted.map (fun m => m.Path) = _
    unfold pipelineRun
    rw [workerLoop_none_emitted]
    rw [← hstream, hgood]
    simp [initialRun, mkMeta]
  · intro e he hre hba
    exfalso
    have hmem : e ∈ streamPass fs := by
      rw [hstream]
      exact List.mem_filter.mpr ⟨he, hre⟩
    have := List.filter_eq_self.mp hgood e hmem
    rw [hba] at this
    exact Bool.noConfusion this

/-- Witness for C3: a successful two-file scan reports exactly both
relative paths. -/
theorem report_files_match_walk_witness :
    sampleReport.Files.map (fun m => m.Path) =
      (([fileA, fileB].filter reachableFile).filter goodFile).map
        (fun e => relPath "root" e.path) :=
  (report_files_match_walk [fileA, fileB] "root" "source" none true true 9
      sampleReport (by decide)).1

/-- C4.  A worker's post-increment count, compared against the recorded
total, is what closes the result stream: starting from the initial run
state the channel ends up closed exactly when the total is positive and
the emitted records reach it, the processed counter equals the number of
emitted records, and the collector terminates (outcome other than `hang`)
exactly when the channel was closed — the equality comparison is the
pipeline's sole completion signal. -/
theorem completion_signal_iff_count_reaches_total (root : String)
    (total : Int) (jobs : List FileEntry) (fs : List FileEntry)
    (rtype : String) (createOk encodeOk : Bool) (now : Nat) :
    ((workerLoop root total none jobs 0 (initialRun root total)).resultsClosed =
        true ↔
      0 < total ∧ total ≤ ((jobs.filter goodFile).length : Int)) ∧
    (workerLoop root total none jobs 0 (initialRun root total)).processed =
      ((jobs.filter goodFile).length : Int) ∧
    (workerLoop root total none jobs 0 (initialRun root total)).emitted =
      (jobs.filter goodFile).map (mkMeta root) ∧
    ((CollectFiles fs root rtype none createOk encodeOk now).outcome =
        Outcome.hang ↔
      (pipelineRun fs root none).resultsClosed = false) := by
  refine ⟨?_, ?_, ?_, ?_⟩
  · rw [workerLoop_none_closed]
    simp [initialRun]
  · rw [workerLoop_none_processed]
    simp [initialRun]
  · rw [workerLoop_none_emitted]
    simp [initialRun]
  · rw [CollectFiles_eq]
    by_cases hcl : (pipelineRun fs root none).resultsClosed
    · rw [if_pos hcl, if_neg (by simp)]
      simp [hcl]
    · rw [if_neg hcl]
      simp [hcl]

/-- C6.  A job whose stat or hash fails is logged and skipped: the emitted
records are exactly those of the stat-and-hash-successful jobs (so later
files are still processed and the run is not aborted), and each failing
streamed file leaves its error event in the run's broadcast stream. -/
theorem per_item_failure_logged_and_skipped (fs : List FileEntry)
    (root rtype : String) (createOk encodeOk : Bool) (now : Nat) :
    (pipelineRun fs root none).emitted =
      ((streamPass fs).filter goodFile).map (mkMeta root) ∧
    ∀ e ∈ streamPass fs, goodFile e = false →
      perItemErrEvent e ∈
        (CollectFiles fs root rtype none createOk encodeOk now).events := by
  constructor
  · unfold pipelineRun
    rw [workerLoop_none_emitted]
    simp [initialRun]
  · intro e he hba
    have hpipe : perItemErrEvent e ∈ (pipelineRun fs root none).events := by
      unfold pipelineRun
      exact workerLoop_bad_logged root (countPass fs) (streamPass fs) 0
        (initialRun root (countPass fs)) e he hba
    rw [CollectFiles_eq]
    by_cases hcl : (pipelineRun fs root none).resultsClosed
    · rw [if_pos hcl, if_neg (by simp)]
      exact List.mem_append_left _ hpipe
    · rw [if_neg hcl]
      exact hpipe

/-- Witness for C6: in a scan of a good file, a stat-failing file and a
second good file, both good files are emitted and the failure is logged. -/
theorem per_item_failure_witness :
    (pipelineRun [fileA, fileBad, fileB] "root" none).emitted =
      ((streamPass [fileA, fileBad, fileB]).filter goodFile).map
        (mkMeta "root") ∧
    perItemErrEvent fileBad ∈
      (CollectFiles [fileA, fileBad, fileB] "root" "source" none true true
        0).events :=
  ⟨(per_item_failure_logged_and_skipped [fileA, fileBad, fileB] "root"
      "source" true true 0).1,
   (per_item_failure_logged_and_skipped [fileA, fileBad, fileB] "root"
      "source" true true 0).2 fileBad (by decide) (by decide)⟩

/-- C8 counterexample.  A traversal error on a directory mid-walk aborts
the stream pass, but no pipeline-level failure event is broadcast (the
complete event list of the run is shown) and the run silently stalls with
status "running": the error `filepath.Walk` returns is discarded at
line 290. -/
theorem walk_error_unsurfaced_counterexample :
    streamPassFailed [fileA, dirErr, fileB] = true ∧
    streamPass [fileA, dirErr, fileB] = [fileA] ∧
    (CollectFiles [fileA, dirErr, fileB] "root" "source" none true true
        0).events =
      [Event.logCountStart "root", Event.logCountDone 2, Event.progressStart,
       Event.progressCollected "a.txt" 1 2] ∧
    (CollectFiles [fileA, dirErr, fileB] "root" "source" none true true
        0).outcome = Outcome.hang ∧
    (CollectFiles [fileA, dirErr, fileB] "root" "source" none true true
        0).finalStatus = "running" := by
  refine ⟨rfl, by decide, by decide, rfl, rfl⟩

/-- C8 amended.  A traversal error on an entry aborts the stream pass with
that error — nothing at or after the erroring entry is enqueued and the
walk reports failure — but the enclosing goroutine discards the returned
error, so no traversal-failure event is ever broadcast by the run. -/
theorem walk_error_aborts_silently (fs₁ : List FileEntry) (e : FileEntry)
    (fs₂ : List FileEntry) (root rtype : String) (cancelAt : Option Nat)
    (createOk encodeOk : Bool) (now : Nat)
    (h₁ : ∀ x ∈ fs₁, x.walkErr = false) (he : e.walkErr = true) :
    streamPass (fs₁ ++ e :: fs₂) = fs₁.filter (fun x => !x.isDir) ∧
    streamPassFailed (fs₁ ++ e :: fs₂) = true ∧
    ∀ m, Event.logWalkFailure m ∉
      (CollectFiles (fs₁ ++ e :: fs₂) root rtype cancelAt createOk encodeOk
        now).events := by
  refine ⟨?_, ?_, ?_⟩
  · unfold streamPass
    rw [takeWhile_clean_append fs₁ e fs₂ h₁ he]
  · unfold streamPassFailed
    rw [List.any_eq_true]
    exact ⟨e, by simp, he⟩
  · intro m
    exact collectFiles_no_walkFailure (fs₁ ++ e :: fs₂) root rtype cancelAt
      createOk encodeOk now m

/-- Witness for C8 amended at the concrete aborted walk. -/
theorem walk_error_aborts_silently_witness :
    streamPass [fileA, dirErr, fileB] = [fileA] ∧
    Event.logWalkFailure "walk failed" ∉
      (CollectFiles [fileA, dirErr, fileB] "root" "source" none true true
        0).events :=
  ⟨(walk_error_aborts_silently [fileA] dirErr [fileB] "root" "source" none
      true true 0 (by decide) rfl).1,
   (walk_error_aborts_silently [fileA] dirErr [fileB] "root" "source" none
      true true 0 (by decide) rfl).2.2 "walk failed"⟩

/-- C10.  A scan that reaches report assembly broadcasts the success log
("Coleta finalizada!") and sets status "finished" whatever the outcomes of
`os.Create` and JSON encoding: its events, status and outcome coincide
with those of a run whose report write succeeds, and a failed create or
encode only empties the on-disk report, which no public observable
reflects. -/
theorem report_write_failure_indistinguishable (fs : List FileEntry)
    (root rtype : String) (createOk encodeOk : Bool) (now : Nat)
    (r : CollectionReport)
    (h : (CollectFiles fs root rtype none createOk encodeOk now).outcome =
      Outcome.report r) :
    (CollectFiles fs root rtype none createOk encodeOk now).finalStatus =
      "finished" ∧
    Event.logDone (reportFileName rtype now) ∈
      (CollectFiles fs root rtype none createOk encodeOk now).events ∧
    Event.progressDone ∈
      (CollectFiles fs root rtype none createOk encodeOk now).events ∧
    (CollectFiles fs root rtype none createOk encodeOk now).events =
      (CollectFiles fs root rtype none true true now).events ∧
    (CollectFiles fs root rtype none createOk encodeOk now).finalStatus =
      (CollectFiles fs root rtype none true true now).finalStatus ∧
    (CollectFiles fs root rtype none createOk encodeOk now).outcome =
      (CollectFiles fs root rtype none true true now).outcome ∧
    (createOk = false ∨ encodeOk = false →
      (CollectFiles fs root rtype none createOk encodeOk now).onDisk =
        none) := by
  obtain ⟨-, hclosed, -⟩ :=
    collect_report_inversion fs root rtype none createOk encodeOk now r h
  have hns : ¬((none : Option Nat).isSome = true) := by simp
  rw [CollectFiles_eq, CollectFiles_eq, if_pos hclosed, if_pos hclosed,
    if_neg hns, if_neg hns]
  refine ⟨rfl, by simp, by simp, rfl, rfl, rfl, ?_⟩
  rintro (hco | heo)
  · simp [hco]
  · cases createOk <;> simp [heo]

/-- Witness for C10: a one-file scan whose `os.Create` fails still reports
"finished" and persists nothing. -/
theorem report_write_failure_witness :
    (CollectFiles [fileA] "root" "source" none false true 0).finalStatus =
      "finished" ∧
    (CollectFiles [fileA] "root" "source" none false true 0).onDisk =
      none :=
  ⟨(report_write_failure_indistinguishable [fileA] "root" "source" false true
      0 { rtype := "source", RootPath := "root"
          Files := [{ Path := "a.txt", Size := 4, ModTime := 0, Hash := "ha" }]
          Timestamp := 0 } (by decide)).1,
   (report_write_failure_indistinguishable [fileA] "root" "source" false true
      0 { rtype := "source", RootPath := "root"
          Files := [{ Path := "a.txt", Size := 4, ModTime := 0, Hash := "ha" }]
          Timestamp := 0 } (by decide)).2.2.2.2.2.2 (Or.inl rfl)⟩
